import Mathlib

/-!
Verification of the traversal and export-decision engine of the Fusion360
batch exporter (`Exporter.py`).  The Python source is shallowly embedded:
pure functions become Lean functions, the external CAD application and the
filesystem become an explicit `World` of oracles, exceptions become
`Except`, and the side effects relevant to the claims (document
acquisition/release) are recorded as an explicit action trace.
-/

/-! ## SHA-256 (used by `sanitize_filename`, Exporter.py line 196)

`hashlib.sha256(name.encode()).hexdigest()[:8]` — we embed SHA-256 over
`Nat` with explicit reduction modulo 2^32.  Bitwise operations are written
as structural recursions (32 fueled steps) so that every definition
reduces inside the kernel. -/

def w32 (x : Nat) : Nat := x % 4294967296

/-- Bitwise XOR of the low `fuel` bits, written structurally. -/
def xorN : Nat → Nat → Nat → Nat
  | 0, _, _ => 0
  | fuel + 1, a, b => (a % 2 + b % 2) % 2 + 2 * xorN fuel (a / 2) (b / 2)

/-- Bitwise AND of the low `fuel` bits, written structurally. -/
def andN : Nat → Nat → Nat → Nat
  | 0, _, _ => 0
  | fuel + 1, a, b => (a % 2) * (b % 2) + 2 * andN fuel (a / 2) (b / 2)

def x32 (a b : Nat) : Nat := xorN 32 a b

def a32 (a b : Nat) : Nat := andN 32 a b

/-- Bitwise complement on 32 bits (argument must be < 2^32). -/
def n32 (a : Nat) : Nat := 4294967295 - a

/-- Rotate a 32-bit word right by `n` (the two shifted parts are
disjoint, so `+` is the same as bitwise or). -/
def rotr (n x : Nat) : Nat := x / 2 ^ n + x % 2 ^ n * 2 ^ (32 - n)

def shaCh (e f g : Nat) : Nat := x32 (a32 e f) (a32 (n32 e) g)

def shaMaj (a b c : Nat) : Nat := x32 (x32 (a32 a b) (a32 a c)) (a32 b c)

def bigSigma0 (a : Nat) : Nat := x32 (x32 (rotr 2 a) (rotr 13 a)) (rotr 22 a)

def bigSigma1 (e : Nat) : Nat := x32 (x32 (rotr 6 e) (rotr 11 e)) (rotr 25 e)

def smallSigma0 (x : Nat) : Nat := x32 (x32 (rotr 7 x) (rotr 18 x)) (x / 8)

def smallSigma1 (x : Nat) : Nat := x32 (x32 (rotr 17 x) (rotr 19 x)) (x / 1024)

def shaK : List Nat :=
[1116352408, 1899447441, 3049323471, 3921009573, 961987163, 1508970993,
 2453635748, 2870763221, 3624381080, 310598401, 607225278, 1426881987,
 1925078388, 2162078206, 2614888103, 3248222580, 3835390401, 4022224774,
 264347078, 604807628, 770255983, 1249150122, 1555081692, 1996064986,
 2554220882, 2821834349, 2952996808, 3210313671, 3336571891, 3584528711,
 113926993, 338241895, 666307205, 773529912, 1294757372, 1396182291,
 1695183700, 1986661051, 2177026350, 2456956037, 2730485921, 2820302411,
 3259730800, 3345764771, 3516065817, 3600352804, 4094571909, 275423344,
 430227734, 506948616, 659060556, 883997877, 958139571, 1322822218,
 1537002063, 1747873779, 1955562222, 2024104815, 2227730452, 2361852424,
 2428436474, 2756734187, 3204031479, 3329325298]

def shaH0 : List Nat :=
[1779033703, 3144134277, 1013904242, 2773480762, 1359893119, 2600822924,
 528734635, 1541459225]

/-- UTF-8 encoding of one character (mirrors Python `str.encode()`). -/
def charUtf8 (c : Char) : List Nat :=
  let n := c.toNat
  if n < 128 then [n]
  else if n < 2048 then [192 + n / 64, 128 + n % 64]
  else if n < 65536 then [224 + n / 4096, 128 + n / 64 % 64, 128 + n % 64]
  else [240 + n / 262144, 128 + n / 4096 % 64, 128 + n / 64 % 64, 128 + n % 64]

def utf8Bytes (s : String) : List Nat := s.data.flatMap charUtf8

/-- SHA-256 padding: append 0x80, zero bytes to 56 mod 64, then the
bit length as an 8-byte big-endian integer. -/
def shaPad (msg : List Nat) : List Nat :=
  let len := msg.length
  let padLen := (55 + 64 - len % 64) % 64 + 1
  let bitLen := len * 8
  msg ++ [128] ++ List.replicate (padLen - 1) 0 ++
    [bitLen / 72057594037927936 % 256,
     bitLen / 281474976710656 % 256,
     bitLen / 1099511627776 % 256,
     bitLen / 4294967296 % 256,
     bitLen / 16777216 % 256,
     bitLen / 65536 % 256,
     bitLen / 256 % 256,
     bitLen % 256]

/-- Split the padded byte list into 32-bit big-endian words. -/
def bytesToWords : List Nat → List Nat
  | b0 :: b1 :: b2 :: b3 :: rest =>
      (b0 * 16777216 + b1 * 65536 + b2 * 256 + b3) :: bytesToWords rest
  | _ => []

/-- Split a word list into blocks of 16 words (the padded length is a
multiple of 16 words; the fuel is the list itself). -/
def wordsToBlocksGo : List Nat → List Nat → List (List Nat)
  | [], _ => []
  | _ :: fuel, ws =>
    match ws with
    | [] => []
    | _ => ws.take 16 :: wordsToBlocksGo fuel (ws.drop 16)

def wordsToBlocks (ws : List Nat) : List (List Nat) := wordsToBlocksGo ws ws

/-- Extend the 16-word block to the 64-word message schedule.
`acc` holds the schedule so far in reverse order. -/
def shaSchedule : Nat → List Nat → List Nat
  | 0, acc => acc.reverse
  | fuel + 1, acc =>
    let t2 := acc.getD 1 0
    let t7 := acc.getD 6 0
    let t15 := acc.getD 14 0
    let t16 := acc.getD 15 0
    let next := (smallSigma1 t2 + t7 + smallSigma0 t15 + t16) % 4294967296
    shaSchedule fuel (next :: acc)

structure Sha8 where
  a : Nat
  b : Nat
  c : Nat
  d : Nat
  e : Nat
  f : Nat
  g : Nat
  h : Nat

def shaRound (st : Sha8) (kw : Nat × Nat) : Sha8 :=
  let t1 := (st.h + bigSigma1 st.e + shaCh st.e st.f st.g + kw.1 + kw.2) % 4294967296
  let t2 := (bigSigma0 st.a + shaMaj st.a st.b st.c) % 4294967296
  { a := (t1 + t2) % 4294967296, b := st.a, c := st.b, d := st.c,
    e := (st.d + t1) % 4294967296, f := st.e, g := st.f, h := st.g }

def shaCompress (hs : List Nat) (block : List Nat) : List Nat :=
  let w := shaSchedule 48 block.reverse
  let init : Sha8 :=
    { a := hs.getD 0 0, b := hs.getD 1 0, c := hs.getD 2 0, d := hs.getD 3 0,
      e := hs.getD 4 0, f := hs.getD 5 0, g := hs.getD 6 0, h := hs.getD 7 0 }
  let st := (shaK.zip w).foldl shaRound init
  [(hs.getD 0 0 + st.a) % 4294967296, (hs.getD 1 0 + st.b) % 4294967296,
   (hs.getD 2 0 + st.c) % 4294967296, (hs.getD 3 0 + st.d) % 4294967296,
   (hs.getD 4 0 + st.e) % 4294967296, (hs.getD 5 0 + st.f) % 4294967296,
   (hs.getD 6 0 + st.g) % 4294967296, (hs.getD 7 0 + st.h) % 4294967296]

def sha256Words (msg : List Nat) : List Nat :=
  (wordsToBlocks (bytesToWords (shaPad msg))).foldl shaCompress shaH0

def hexDigit (n : Nat) : Char :=
  if n < 10 then Char.ofNat (48 + n) else Char.ofNat (87 + n)

def wordHexChars (n : Nat) : List Char :=
  [hexDigit (n / 268435456 % 16), hexDigit (n / 16777216 % 16),
   hexDigit (n / 1048576 % 16), hexDigit (n / 65536 % 16),
   hexDigit (n / 4096 % 16), hexDigit (n / 256 % 16),
   hexDigit (n / 16 % 16), hexDigit (n % 16)]

/-- `hashlib.sha256(s.encode()).hexdigest()` as a character list. -/
def sha256HexChars (s : String) : List Char :=
  (sha256Words (utf8Bytes s)).flatMap wordHexChars

namespace Exporter

/-! ## `sanitize_filename` (Exporter.py lines 183-197) -/

/-- The characters replaced by `re.sub(r'[:\\/*?<>|"]', ' ', name)`. -/
def badChars : List Char := [':', '\\', '/', '*', '?', '<', '>', '|', '"']

/-- `re.sub(r'[:\\/*?<>|"]', ' ', name)`: every bad character becomes one space. -/
def replaceBadChars (name : String) : String :=
  String.mk (name.data.map fun c => if c ∈ badChars then ' ' else c)

/-- Exporter.py lines 183-197. -/
def sanitize_filename (name : String) : String :=
  let with_replacement := replaceBadChars name
  if name = with_replacement then name
  else String.mk (with_replacement.data ++ '_' :: (sha256HexChars name).take 8)

/-! ## `Counter` (Exporter.py lines 144-160) -/

structure Counter where
  saved : Nat := 0
  skipped : Nat := 0
  errored : Nat := 0
deriving DecidableEq

instance : Add Counter :=
  ⟨fun a b => ⟨a.saved + b.saved, a.skipped + b.skipped, a.errored + b.errored⟩⟩

instance : Zero Counter := ⟨⟨0, 0, 0⟩⟩

/-! ## `Format` (Exporter.py lines 59-70)

The root name `Format` is taken by core's `Std.Format`, so inside this
namespace `Format` is `Exporter.Format`. -/

inductive Format where
  | F3D
  | STEP
  | STL
  | IGES
  | SAT
  | SMT
  | TMF
deriving DecidableEq

def Format.value : Format → String
  | .F3D => "f3d"
  | .STEP => "step"
  | .STL => "stl"
  | .IGES => "igs"
  | .SAT => "sat"
  | .SMT => "smt"
  | .TMF => "3mf"

/-- `FormatFromName = {x.value: x for x in Format}`; lookup of a missing
key raises `KeyError`, modelled by `none`. -/
def FormatFromName : String → Option Format
  | "f3d" => some .F3D
  | "step" => some .STEP
  | "stl" => some .STL
  | "igs" => some .IGES
  | "sat" => some .SAT
  | "smt" => some .SMT
  | "3mf" => some .TMF
  | _ => none

/-- Exporter.py line 22. -/
def VERSION_SEPARATOR : String := "_"

/-- Exporter.py line 72. -/
def archive_extensions : List String :=
  [".zip", ".rar", ".gz", ".tar.gz", ".tar.bz2", ".tar.xz"]

/-! ## Python `set`/`list` values of `projects_folders`

`Ctx.projects_folders` values are either the Python list `[]` (assigned by
`make_projects_folders` for a whole-project selection) or a Python `set`
of folder ids (built by `set.add` / `set(v)` in `from_dict`).  A Python
`set` is modelled canonically as its strictly sorted list of elements, so
Lean equality of `pyset` values coincides with Python set equality.
Crucially, in Python `someSet == someList` is `False` regardless of
contents; `PFValue.eqList` reproduces that. -/

inductive PFValue where
  | pylist : List String → PFValue
  | pyset : List String → PFValue
deriving DecidableEq

/-- Code-point comparison of strings (structural, kernel-reducible); any
total order works here, it only fixes the canonical representative of a
Python set. -/
def charListLt : List Char → List Char → Bool
  | [], [] => false
  | [], _ :: _ => true
  | _ :: _, [] => false
  | a :: as, b :: bs =>
    if a.toNat < b.toNat then true
    else if b.toNat < a.toNat then false
    else charListLt as bs

/-- Insert into the canonical (strictly sorted, duplicate-free) set list. -/
def insertStr (x : String) : List String → List String
  | [] => [x]
  | y :: ys =>
    if x = y then y :: ys
    else if charListLt x.data y.data then x :: y :: ys
    else y :: insertStr x ys

/-- `set(v)` for a Python list `v`. -/
def mkSet (l : List String) : List String := l.foldr insertStr []

/-- Python `v == l` where `v` is a list-or-set and `l` a list: a set never
equals a list. -/
def PFValue.eqList (v : PFValue) (l : List String) : Bool :=
  match v with
  | .pylist l' => l' = l
  | .pyset _ => false

/-- Python `x in v` (works on both lists and sets). -/
def PFValue.memS (x : String) (v : PFValue) : Bool :=
  match v with
  | .pylist l => x ∈ l
  | .pyset s => x ∈ s

/-- Python `list(v)` (for a canonical set, its element list). -/
def pfToList : PFValue → List String
  | .pylist l => l
  | .pyset s => s

/-! ## `Ctx` (Exporter.py lines 74-106)

The `app` handle is part of `World` below; `folder` is the `str` of the
`pathlib.Path` (`Path(str(p)) == p`, so serialization of the folder is the
identity in this model); `projects_folders` is an insertion-ordered
association list, like a Python dict. -/

structure Ctx where
  folder : String
  formats : List Format
  projects_folders : List (String × PFValue)
  unhide_all : Bool
  save_sketches : Bool
  num_versions : Int
deriving DecidableEq

/-- `Ctx.extend` (line 83): `self._replace(folder=self.folder / other)`. -/
def Ctx.extend (c : Ctx) (other : String) : Ctx :=
  { c with folder := c.folder ++ "/" ++ other }

/-- The serialized form produced by `Ctx.to_dict` (lines 86-92): `app` is
dropped, `folder` stringified, formats become their `value` strings and
each `projects_folders` value becomes a list. -/
structure CtxDict where
  folder : String
  formats : List String
  projects_folders : List (String × List String)
  unhide_all : Bool
  save_sketches : Bool
  num_versions : Int
deriving DecidableEq

def Ctx.to_dict (c : Ctx) : CtxDict :=
  { folder := c.folder
    formats := c.formats.map Format.value
    projects_folders := c.projects_folders.map fun kv => (kv.1, pfToList kv.2)
    unhide_all := c.unhide_all
    save_sketches := c.save_sketches
    num_versions := c.num_versions }

/-- `Ctx.from_dict` (lines 97-103): `FormatFromName[x]` raises `KeyError`
for unknown format names, and every `projects_folders` value becomes
`set(v)`. -/
def Ctx.from_dict (d : CtxDict) : Except String Ctx :=
  match d.formats.mapM FormatFromName with
  | none => .error "KeyError: unknown format name"
  | some fmts =>
    .ok { folder := d.folder
          formats := fmts
          projects_folders := d.projects_folders.map fun kv => (kv.1, PFValue.pyset (mkSet kv.2))
          unhide_all := d.unhide_all
          save_sketches := d.save_sketches
          num_versions := d.num_versions }

/-! ## `make_projects_folders` (Exporter.py lines 505-514)

`project_folders_d` maps a UI item name to `(project id, folder id)`, the
folder id being `none` when sub-folders are not shown.  The result is a
`defaultdict(set)` where a whole-project selection assigns the Python
list `[]` and a folder selection `add`s to a set. -/

/-- Assignment `d[k] = v` on an insertion-ordered dict. -/
def dictAssign (d : List (String × PFValue)) (k : String) (v : PFValue) :
    List (String × PFValue) :=
  if (d.lookup k).isSome then d.map fun kv => if kv.1 = k then (k, v) else kv
  else d ++ [(k, v)]

/-- `d[k].add(x)` on a `defaultdict(set)`: a missing key gets a fresh set;
`add` on a value that is a Python list raises `AttributeError`. -/
def dictSetAdd (d : List (String × PFValue)) (k x : String) :
    Except String (List (String × PFValue)) :=
  match d.lookup k with
  | none => .ok (d ++ [(k, .pyset [x])])
  | some (.pyset s) =>
      .ok (d.map fun kv => if kv.1 = k then (k, PFValue.pyset (insertStr x s)) else kv)
  | some (.pylist _) => .error "AttributeError: list object has no attribute add"

def make_projects_folders_go (pfd : List (String × (String × Option String))) :
    List (String × Bool) → List (String × PFValue) →
    Except String (List (String × PFValue))
  | [], d => .ok d
  | (name, isSelected) :: rest, d =>
    if isSelected then
      match pfd.lookup name with
      | none => .error "KeyError: unknown list item"
      | some (pid, none) => make_projects_folders_go pfd rest (dictAssign d pid (.pylist []))
      | some (pid, some fid) =>
        match dictSetAdd d pid fid with
        | .error e => .error e
        | .ok d' => make_projects_folders_go pfd rest d'
    else make_projects_folders_go pfd rest d

def make_projects_folders (pfd : List (String × (String × Option String)))
    (items : List (String × Bool)) : Except String (List (String × PFValue)) :=
  make_projects_folders_go pfd items []

deriving instance DecidableEq for Except

/-! ## The external CAD application and filesystem

`adsk` objects are modelled by plain data; the effectful collaborators
(path existence, `documents.open`, `em.execute`, `sketch.saveAsDXF`) by a
`World` of oracles.  An exception raised by a collaborator is an
`Except.error`.  Document acquisition/release (`documents.open` /
`document.close(False)`) and the unhide-all normalization are recorded in
an action trace; other side effects (logging, `mkdir`, `set_mtime`) do not
influence any claim and are not traced. -/

/-- One version handle of a data file (`adsk.core.DataFile`): the fields
the exporter reads before opening. -/
structure VFile where
  name : String
  versionNumber : Nat
  fileExtension : String
deriving DecidableEq

/-- A data file handle together with its `versions` collection (which, in
Fusion, includes the current version itself). -/
structure DataFile extends VFile where
  versions : List VFile
deriving DecidableEq

structure Sketch where
  name : String
deriving DecidableEq

mutual
inductive Component where
  | mk : String → List Sketch → List Occurrence → Component
inductive Occurrence where
  | mk : String → Component → Occurrence
end

def Component.cname : Component → String
  | .mk n _ _ => n

def Component.sketches : Component → List Sketch
  | .mk _ s _ => s

def Component.occurrences : Component → List Occurrence
  | .mk _ _ o => o

/-- An opened document (`design_from_document(document)` exposes
`rootComponent`). -/
structure Doc where
  rootComponent : Component

/-- A folder in a project (`adsk` `DataFolder`): id, name, files,
sub-folders. -/
inductive Folder where
  | mk : String → String → List DataFile → List Folder → Folder

def Folder.folderId : Folder → String
  | .mk i _ _ _ => i

def Folder.fname : Folder → String
  | .mk _ n _ _ => n

def Folder.dataFiles : Folder → List DataFile
  | .mk _ _ fs _ => fs

def Folder.dataFolders : Folder → List Folder
  | .mk _ _ _ sub => sub

structure Project where
  projId : String
  projName : String
  rootFolder : Folder

/-- Traced document-level side effects. -/
inductive Action where
  | acquire : String → Action
  | release : String → Action
  | unhideAll : String → Action
deriving DecidableEq

/-- The oracles for the external collaborators.  `pathExists` is the
filesystem (`Path.exists`); `openDoc` is `app.documents.open` (an
`Except.error` is an exception raised by the CAD engine); `exportOk` tells
whether `em.execute` on the given output path and format succeeds;
`sketchOk` likewise for `sketch.saveAsDXF`; `update_existing_file_times`
is the module-level toggle of Exporter.py line 19; `dataProjects` is
`app.data.dataProjects`. -/
structure World where
  pathExists : String → Bool
  openDoc : VFile → Except String Doc
  exportOk : String → Format → Bool
  sketchOk : String → Bool
  update_existing_file_times : Bool
  dataProjects : List Project

/-! ## `output_path_exists` (Exporter.py lines 203-223)

Returns `(skip?, set_mtime_called?)`.  The archive loop checks
`path.with_name(path.name + ext)`, i.e. each archive extension appended to
the candidate's full name. -/

def output_path_exists (update_existing_file_times : Bool)
    (pathExists : String → Bool) (path : String) : Bool × Bool :=
  if pathExists path then (true, update_existing_file_times)
  else if archive_extensions.any (fun ext => pathExists (path ++ ext)) then (true, false)
  else (false, false)

def outputPathExistsW (w : World) (path : String) : Bool × Bool :=
  output_path_exists w.update_existing_file_times w.pathExists path

/-- Modelled from the spec: the force-overwrite configuration flag (spec
§4.3), which is absent from `src/Exporter.py` (it exists only in the
newer configuration exercised by `test.py`).  Per the spec it "bypasses
(a) and (b) entirely": export always proceeds and no mtime is touched. -/
def output_path_exists_force (force update_existing_file_times : Bool)
    (pathExists : String → Bool) (path : String) : Bool × Bool :=
  if force then (false, false)
  else output_path_exists update_existing_file_times pathExists path

/-! ## `LazyDocument` (Exporter.py lines 108-142) -/

structure LazyDocument where
  file : VFile
  document : Option Doc

/-- `LazyDocument(ctx, file)`: `_document = None`. -/
def LazyDocument.new (file : VFile) : LazyDocument := ⟨file, none⟩

/-- `open` (lines 114-122): no-op if `_document is not None`; otherwise
`app.documents.open(file)` (which may raise), `activate`, and — if
`ctx.unhide_all` — the recursive unhide pass. -/
def LazyDocument.opn (w : World) (ctx : Ctx) (d : LazyDocument) :
    Except String LazyDocument × List Action :=
  match d.document with
  | some _ => (.ok d, [])
  | none =>
    match w.openDoc d.file with
    | .error e => (.error e, [])
    | .ok doc =>
      (.ok { d with document := some doc },
       .acquire d.file.name ::
         (if ctx.unhide_all then [.unhideAll d.file.name] else []))

/-- `close` (lines 124-128): no-op if never opened; otherwise
`_document.close(False)`.  Note the source does NOT reset `_document`
to `None`, so the state is unchanged and a repeated `close` issues the
underlying close again. -/
def LazyDocument.cls (d : LazyDocument) : LazyDocument × List Action :=
  match d.document with
  | none => (d, [])
  | some _ => (d, [.release d.file.name])

/-! ## Sketch export (Exporter.py lines 227-250) -/

/-- `export_sketch` (lines 227-236): skip if the output path (or an
archive of it) exists, otherwise `saveAsDXF` (which may raise). -/
def export_sketch (w : World) (ctx : Ctx) (sketch : Sketch) : Except String Counter :=
  let output_path := ctx.folder ++ "/" ++ sanitize_filename sketch.name ++ ".dxf"
  if (outputPathExistsW w output_path).1 then .ok ⟨0, 1, 0⟩
  else if w.sketchOk output_path then .ok ⟨1, 0, 0⟩
  else .error "saveAsDXF raised"

/-- The per-sketch loop of `visit_sketches` (lines 240-245): each export
is individually wrapped by `try`/`except`, an exception counting one
`errored`. -/
def sketchLoop (w : World) (ctx : Ctx) : List Sketch → Counter
  | [] => 0
  | sk :: rest =>
    (match export_sketch w ctx sk with
     | .ok c => c
     | .error _ => ⟨0, 0, 1⟩) + sketchLoop w ctx rest

mutual
/-- `visit_sketches` (lines 238-250). -/
def visit_sketches (w : World) (ctx : Ctx) : Component → Counter
  | .mk _ sketches occs => sketchLoop w ctx sketches + occLoop w ctx occs
/-- The recursion over `component.occurrences` (lines 247-248); each
occurrence extends the path with its sanitized name. -/
def occLoop (w : World) (ctx : Ctx) : List Occurrence → Counter
  | [] => 0
  | .mk oname ocomp :: rest =>
    visit_sketches w (ctx.extend (sanitize_filename oname)) ocomp + occLoop w ctx rest
end

/-! ## Whole-file export (Exporter.py lines 252-294) -/

/-- `export_filename` (lines 252-255). -/
def export_filename (ctx : Ctx) (format : Format) (file : VFile) : String :=
  ctx.folder ++ "/" ++ (sanitize_filename file.name ++ VERSION_SEPARATOR ++ "v" ++
    toString file.versionNumber ++ "." ++ format.value)

/-- `export_file` (lines 257-294): skip check, lazy `doc.open()` (may
raise), the closed per-format `create...ExportOptions` dispatch of lines
272-288 (our `Format` is the same closed enumeration, so the final
`raise` of line 288 is unreachable), then `em.execute` (may raise).
The mutated `LazyDocument` is threaded through. -/
def export_file (w : World) (ctx : Ctx) (format : Format) (doc : LazyDocument) :
    Except String Counter × LazyDocument × List Action :=
  let output_path := export_filename ctx format doc.file
  if (outputPathExistsW w output_path).1 then (.ok ⟨0, 1, 0⟩, doc, [])
  else
    match LazyDocument.opn w ctx doc with
    | (.error e, tr) => (.error e, doc, tr)
    | (.ok doc1, tr) =>
      if w.exportOk output_path format then (.ok ⟨1, 0, 0⟩, doc1, tr)
      else (.error "em.execute raised", doc1, tr)

/-- The per-format loop of `visit_file` (lines 310-315): each
`export_file` is individually wrapped, an exception counting one
`errored`; the loop continues with the remaining formats in every case. -/
def formatsLoop (w : World) (ctx : Ctx) :
    List Format → LazyDocument → Counter × LazyDocument × List Action
  | [], doc => (0, doc, [])
  | format :: rest, doc =>
    match export_file w ctx format doc with
    | (.ok c, doc1, tr) =>
      let (c2, doc2, tr2) := formatsLoop w ctx rest doc1
      (c + c2, doc2, tr ++ tr2)
    | (.error _, doc1, tr) =>
      let (c2, doc2, tr2) := formatsLoop w ctx rest doc1
      (⟨0, 0, 1⟩ + c2, doc2, tr ++ tr2)

/-! ## `visit_file` (Exporter.py lines 296-317) -/

/-- The body of the `with LazyDocument(...) as doc:` block (lines
303-317).  An `Except.error` result is an exception escaping the block
(possible only from the `doc.open()` of the `save_sketches` branch, line
307; the format loop absorbs its own errors). -/
def visit_file_body (w : World) (ctx : Ctx) (doc : LazyDocument) :
    Except String Counter × LazyDocument × List Action :=
  if ctx.save_sketches then
    match LazyDocument.opn w ctx doc with
    | (.error e, tr) => (.error e, doc, tr)
    | (.ok doc1, tr) =>
      match doc1.document with
      | none => (.error "FusionDocument.cast failed", doc1, tr)
      | some d =>
        let c1 := visit_sketches w
          (ctx.extend (sanitize_filename d.rootComponent.cname)) d.rootComponent
        let (c2, doc2, tr2) := formatsLoop w ctx ctx.formats doc1
        (.ok (c1 + c2), doc2, tr ++ tr2)
  else
    let (c2, doc2, tr2) := formatsLoop w ctx ctx.formats doc
    (.ok c2, doc2, tr2)

/-- `visit_file` (lines 296-317): a non-`f3d` extension is skipped before
any document handling; otherwise the body runs under the `with` statement
and `close` runs on every exit path, the exceptional one included. -/
def visit_file (w : World) (ctx : Ctx) (file : VFile) :
    Except String Counter × List Action :=
  if file.fileExtension ≠ "f3d" then (.ok ⟨0, 1, 0⟩, [])
  else
    match visit_file_body w ctx (LazyDocument.new file) with
    | (res, docF, trB) =>
      let (_, trC) := docF.cls
      (res, trB ++ trC)

/-! ## `file_versions` (Exporter.py lines 319-344)

The Python function is a generator; it is modelled by the list of handles
it yields together with `some msg` when it ends by raising.  All its
effects are pure, and the enclosing loop (`visit_folder`) always pulls
either to exhaustion or to the first exception, so this captures the lazy
semantics exactly: the pre-gap prefix is yielded (and visited) before the
gap raises. -/

/-- `sorted(file.versions, key=lambda x: x.versionNumber, reverse=True)`:
a stable descending sort by version number (Python's `sorted` is stable;
`List.insertionSort` with this relation is the same stable sort). -/
def vGe (a b : VFile) : Prop := b.versionNumber ≤ a.versionNumber

instance : DecidableRel vGe := fun _ _ => Nat.decLe _ _

instance : IsTotal VFile vGe :=
  ⟨fun a b => by unfold vGe; exact Nat.le_total _ _⟩

instance : IsTrans VFile vGe :=
  ⟨fun _ _ _ h₁ h₂ => Nat.le_trans h₂ h₁⟩

def sortDesc (l : List VFile) : List VFile := l.insertionSort vGe

/-- Python `l[1:stop]` (negative `stop` counts from the end). -/
def pySlice1To (stop : Int) (l : List VFile) : List VFile :=
  let st : Nat := if stop < 0 then ((l.length : Int) + stop).toNat else stop.toNat
  (l.take st).drop 1

/-- The yield loop of lines 339-344: yield each selected version, raising
on the first non-contiguous step (`prev - v.versionNumber != 1`, computed
in ℤ as in Python). -/
def chainGo (prev : Nat) : List VFile → List VFile × Option String
  | [] => ([], none)
  | v :: vs =>
    if (prev : Int) - (v.versionNumber : Int) ≠ 1 then
      ([], some ("Versions not contiguous! prev=" ++ toString prev ++
                 " cur=" ++ toString v.versionNumber))
    else
      let (r, e) := chainGo v.versionNumber vs
      (v :: r, e)

/-- `file_versions` (lines 319-344): sort all versions numerically
descending, check the head against the file's current version number
(`versions[0]` on an empty list raises `IndexError`), select
`versions[1:]` or `versions[1:num_versions+1]`, then yield the file
followed by the contiguity-checked selection. -/
def file_versions (f : DataFile) (num_versions : Int) : List VFile × Option String :=
  let versions := sortDesc f.versions
  match versions with
  | [] => ([], some "IndexError: list index out of range")
  | v0 :: _ =>
    if v0.versionNumber ≠ f.versionNumber then
      ([], some ("Expected versions[0] to be current file version, but got " ++
                 toString v0.versionNumber))
    else
      let sel := if num_versions = -1 then versions.drop 1
                 else pySlice1To (num_versions + 1) versions
      let (r, e) := chainGo f.versionNumber sel
      (f.toVFile :: r, e)

/-! ## `visit_folder` (Exporter.py lines 346-365) -/

/-- The `for file_version in file_versions(...)` loop inside the per-file
`try` (lines 354-356): an exception from `visit_file` aborts the loop for
this file (and is caught at the file boundary); when the yielded handles
are exhausted, a pending generator exception surfaces and is likewise
caught.  In both cases exactly one `errored` is recorded and the already
accumulated counters are retained. -/
def versionsGo (w : World) (ctx' : Ctx) (generr : Option String) :
    List VFile → Counter × List Action
  | [] => ((match generr with | some _ => ⟨0, 0, 1⟩ | none => 0), [])
  | v :: vs =>
    match visit_file w ctx' v with
    | (.ok c, tr) =>
      let (c2, tr2) := versionsGo w ctx' generr vs
      (c + c2, tr ++ tr2)
    | (.error _, tr) => (⟨0, 0, 1⟩, tr)

/-- One iteration of the `for file in folder.dataFiles` loop (lines
353-359), i.e. the whole per-file `try`/`except` block. -/
def oneFile (w : World) (ctx' : Ctx) (num_versions : Int) (f : DataFile) :
    Counter × List Action :=
  let (ys, generr) := file_versions f num_versions
  versionsGo w ctx' generr ys

def filesLoop (w : World) (ctx' : Ctx) (num_versions : Int) :
    List DataFile → Counter × List Action
  | [] => (0, [])
  | f :: fs =>
    let (c, tr) := oneFile w ctx' num_versions f
    let (c2, tr2) := filesLoop w ctx' num_versions fs
    (c + c2, tr ++ tr2)

mutual
/-- `visit_folder` (lines 346-365). -/
def visit_folder (w : World) (ctx : Ctx) (recurse : Bool) : Folder → Counter × List Action
  | .mk _ name files subs =>
    let new_ctx := ctx.extend (sanitize_filename name)
    let (c1, tr1) := filesLoop w new_ctx ctx.num_versions files
    if recurse then
      let (c2, tr2) := foldersLoop w new_ctx subs
      (c1 + c2, tr1 ++ tr2)
    else (c1, tr1)
/-- The `for sub_folder in folder.dataFolders` loop (lines 361-363). -/
def foldersLoop (w : World) (ctx : Ctx) : List Folder → Counter × List Action
  | [] => (0, [])
  | sub :: rest =>
    let (c, tr) := visit_folder w ctx true sub
    let (c2, tr2) := foldersLoop w ctx rest
    (c + c2, tr ++ tr2)
end

/-! ## `main` (Exporter.py lines 367-393) -/

/-- `app.data.dataProjects.itemById`. -/
def itemById (ps : List Project) (pid : String) : Option Project :=
  ps.find? fun p => p.projId = pid

/-- The `for project_id, folder_ids in ctx.projects_folders.items()` loop
(lines 375-391).  A missing project makes `project.rootFolder` raise
(`itemById` returns `None`), aborting `main`.  Note the two equality
tests compare `folder_ids` against Python *lists*, which is always
`False` when `folder_ids` is a `set`. -/
def projectsLoop (w : World) (ctx : Ctx) :
    List (String × PFValue) → Except String (Counter × List Action)
  | [] => .ok (0, [])
  | (project_id, folder_ids) :: rest =>
    match itemById w.dataProjects project_id with
    | none => .error ("AttributeError: NoneType has no attribute rootFolder for " ++ project_id)
    | some project =>
      let (c, tr) :=
        if folder_ids.eqList [] then visit_folder w ctx true project.rootFolder
        else if folder_ids.eqList [project.rootFolder.folderId] then
          visit_folder w ctx false project.rootFolder
        else
          foldersLoop w ctx (project.rootFolder.dataFolders.filter
            fun x => PFValue.memS x.folderId folder_ids)
      match projectsLoop w ctx rest with
      | .error e => .error e
      | .ok (c2, tr2) => .ok (c + c2, tr ++ tr2)

/-- `main` (lines 367-393) without the logging setup of its first lines. -/
def main (w : World) (ctx : Ctx) : Except String (Counter × List Action) :=
  projectsLoop w ctx ctx.projects_folders

/-! ## Filepath Formatter

Modelled from the spec (§4.2): the `FilepathFormatter` component does not
exist in `src/Exporter.py` (only the newer code exercised by `test.py`
has it); per the spec it is "a parsed template string with named
placeholders (`project`, `folders`, `components`, `file`, `version`,
`ext`) where `folders` and `components` are ordered sequences of segments
joinable with a configurable separator; rendering is pure and total".
A parsed template is a list of parts; sequence placeholders carry their
separator. -/

inductive TemplatePart where
  | lit : String → TemplatePart
  | projectPh : TemplatePart
  | filePh : TemplatePart
  | versionPh : TemplatePart
  | extPh : TemplatePart
  | foldersPh : String → TemplatePart
  | componentsPh : String → TemplatePart

/-- The placeholder values supplied to one `render` call. -/
structure RenderValues where
  project : String
  folders : List String
  components : List String
  file : String
  version : Nat
  ext : String

/-- Modelled from the spec: one placeholder's rendering; a sequence
placeholder joins its segments with the separator, an empty sequence
rendering to the empty string (producing adjacent separators, which the
spec calls intentional). -/
def renderPart (v : RenderValues) : TemplatePart → String
  | .lit s => s
  | .projectPh => v.project
  | .filePh => v.file
  | .versionPh => toString v.version
  | .extPh => v.ext
  | .foldersPh sep => String.intercalate sep v.folders
  | .componentsPh sep => String.intercalate sep v.components

/-- Modelled from the spec: `render(placeholders) -> relative path`. -/
def render (t : List TemplatePart) (v : RenderValues) : String :=
  String.join (t.map (renderPart v))

/-- The parsed form of
`{project}/{folders:sep=/}/{components:sep=_}/{file} v{version}.{ext}`. -/
def specTemplate : List TemplatePart :=
  [.projectPh, .lit "/", .foldersPh "/", .lit "/", .componentsPh "_",
   .lit "/", .filePh, .lit " v", .versionPh, .lit ".", .extPh]

/-! ## Helper definitions used only to state the theorems -/

/-- `[n, n-1, ..., 1]`. -/
def countdown : Nat → List Nat
  | 0 => []
  | n + 1 => (n + 1) :: countdown n

/-- The version numbers of `l` count down one by one starting at
`prev - 1`. -/
def contigFromB (prev : Nat) : List VFile → Bool
  | [] => true
  | v :: vs => (prev = v.versionNumber + 1 : Bool) && contigFromB v.versionNumber vs

/-- The longest contiguously descending (step −1 from `prev`) initial
segment. -/
def takeContig (prev : Nat) : List VFile → List VFile
  | [] => []
  | v :: vs => if prev = v.versionNumber + 1 then v :: takeContig v.versionNumber vs else []

/-- The version selection of `file_versions` before the contiguity check:
`versions[1:]` for −1, else `versions[1:num_versions+1]`. -/
def selOf (f : DataFile) (num_versions : Int) : List VFile :=
  if num_versions = -1 then (sortDesc f.versions).drop 1
  else pySlice1To (num_versions + 1) (sortDesc f.versions)

/-- The counter of a non-raising visit (used under an all-ok hypothesis). -/
def exceptCounter : Except String Counter → Counter
  | .ok c => c
  | .error _ => 0

def sumCounters (l : List Counter) : Counter := l.foldr (· + ·) 0

def isAcquire : Action → Bool
  | .acquire _ => true
  | _ => false

def isRelease : Action → Bool
  | .release _ => true
  | _ => false

def countAcq (tr : List Action) : Nat := tr.countP isAcquire

def countRel (tr : List Action) : Nat := tr.countP isRelease

/-- 1 if the handle holds an open document. -/
def sOf (d : LazyDocument) : Nat := if d.document.isSome then 1 else 0

/-- `v` is a Python set value in canonical form. -/
def isCanonicalSet : PFValue → Prop
  | .pylist _ => False
  | .pyset s => mkSet s = s

instance : DecidablePred isCanonicalSet := fun v =>
  match v with
  | .pylist _ => isFalse (fun h => h)
  | .pyset _ => inferInstanceAs (Decidable (_ = _))

/-! ## Concrete fixtures shared by the witnesses -/

def fxVf (n : Nat) : VFile := ⟨"file1", n, "f3d"⟩

/-- A file whose versions collection arrives in the scrambled order the
source system produces. -/
def fxFile : DataFile :=
  { name := "file1", versionNumber := 3, fileExtension := "f3d",
    versions := [fxVf 1, fxVf 3, fxVf 2] }

/-- A file whose version chain has a gap: versions [3, 1]. -/
def fxGapFile : DataFile :=
  { name := "gap", versionNumber := 3, fileExtension := "f3d",
    versions := [⟨"gap", 3, "f3d"⟩, ⟨"gap", 1, "f3d"⟩] }

/-- A file whose sorted head disagrees with its reported current version. -/
def fxBadHead : DataFile :=
  { name := "bad", versionNumber := 3, fileExtension := "f3d",
    versions := [⟨"bad", 5, "f3d"⟩, ⟨"bad", 4, "f3d"⟩] }

def fxComponent : Component := .mk "component1" [⟨"sketch1"⟩] []

def fxDoc : Doc := ⟨fxComponent⟩

/-- Everything succeeds, nothing exists yet. -/
def fxWorld : World :=
  { pathExists := fun _ => false
    openDoc := fun _ => .ok fxDoc
    exportOk := fun _ _ => true
    sketchOk := fun _ => true
    update_existing_file_times := false
    dataProjects := [] }

/-- Opening any document raises; sketch export raises. -/
def fxWorldErr : World :=
  { fxWorld with
    openDoc := fun _ => .error "open raised"
    sketchOk := fun _ => false }

def fxCtx : Ctx :=
  { folder := "/out", formats := [.F3D, .STEP], projects_folders := []
    unhide_all := false, save_sketches := false, num_versions := -1 }

def fxCtxSk : Ctx := { fxCtx with save_sketches := true }

/-- Root folder of the fixture project: one `f3d` file, no sub-folders. -/
def fxRoot : Folder := .mk "rootid" "Root" [fxFile] []

def fxProject : Project := ⟨"p1", "project1", fxRoot⟩

def fxWorldMain : World := { fxWorld with dataProjects := [fxProject] }

/-- The serialized settings a re-run reads (`Template.py` feeds such a
dict to `Ctx.from_dict`): an empty folder-id list meaning "whole
project". -/
def fxDict : CtxDict :=
  { folder := "/out", formats := ["f3d"], projects_folders := [("p1", [])]
    unhide_all := false, save_sketches := false, num_versions := 0 }

def fxCtxMain : Ctx :=
  { folder := "/out", formats := [.F3D], projects_folders := []
    unhide_all := false, save_sketches := false, num_versions := 0 }

/-- A `Ctx` holding the list-valued "whole project" filter marker that
`make_projects_folders` produces for a whole-project selection. -/
def fxCtxList : Ctx :=
  { folder := "/out", formats := [.F3D], projects_folders := [("p1", .pylist [])]
    unhide_all := true, save_sketches := false, num_versions := 0 }

/-- A `Ctx` whose filter values are all (canonical) sets. -/
def fxCtxSet : Ctx :=
  { folder := "/out", formats := [.F3D, .STEP],
    projects_folders := [("p1", .pyset ["fa", "fb"])]
    unhide_all := true, save_sketches := false, num_versions := 2 }

/-- Two distinct 24-character strings over the bad characters `\` and `:`
whose SHA-256 hex digests share their first 8 characters (found by a
birthday search); both sanitize to 24 spaces plus the same hash suffix. -/
def fxCollA : String := "\\::\\\\\\\\\\\\\\\\:::::\\\\\\\\\\\\\\\\"

def fxCollB : String := "::\\\\::\\:\\\\\\:::::\\\\\\\\\\\\\\\\"

/-! # Theorems -/

theorem Counter.add_def (a b : Counter) :
    a + b = ⟨a.saved + b.saved, a.skipped + b.skipped, a.errored + b.errored⟩ := rfl

theorem Counter.zero_def : (0 : Counter) = ⟨0, 0, 0⟩ := rfl

theorem Counter.zero_add (a : Counter) : 0 + a = a := by
  cases a; simp [Counter.zero_def, Counter.add_def]

theorem Counter.add_zero (a : Counter) : a + 0 = a := by
  cases a; simp [Counter.zero_def, Counter.add_def]

theorem Counter.add_assoc (a b c : Counter) : a + b + c = a + (b + c) := by
  cases a; cases b; cases c; simp [Counter.add_def, Nat.add_assoc]

/-- C2: the skip decision of `output_path_exists` is made in order:
(a) the exact path exists → skip, and the mtime is re-stamped exactly when
the `update_existing_file_times` toggle is set; (b) otherwise, if the path
with any known archive suffix appended to its full name exists → skip and
never re-stamp; (c) otherwise export proceeds.  With the (spec-modelled)
force-overwrite flag set, both checks are bypassed and export proceeds.
The pair returned is (skip?, set_mtime-called?). -/
theorem c2_skip_policy :
    ∀ (upd force : Bool) (pe : String → Bool) (path : String),
      (pe path = true → output_path_exists upd pe path = (true, upd)) ∧
      (pe path = false → (∃ ext ∈ archive_extensions, pe (path ++ ext) = true) →
        output_path_exists upd pe path = (true, false)) ∧
      (pe path = false → (∀ ext ∈ archive_extensions, pe (path ++ ext) = false) →
        output_path_exists upd pe path = (false, false)) ∧
      (force = true → output_path_exists_force force upd pe path = (false, false)) := by
  intro upd force pe path
  refine ⟨fun h => by simp [output_path_exists, h], ?_, ?_, fun h => by
    simp [output_path_exists_force, h]⟩
  · intro h hex
    have ha : archive_extensions.any (fun ext => pe (path ++ ext)) = true := by
      rw [List.any_eq_true]; exact hex
    simp [output_path_exists, h, ha]
  · intro h hall
    have ha : archive_extensions.any (fun ext => pe (path ++ ext)) = false := by
      rw [Bool.eq_false_iff]
      intro hc
      rw [List.any_eq_true] at hc
      obtain ⟨e, he, hpe⟩ := hc
      rw [hall e he] at hpe
      exact Bool.false_ne_true hpe
    simp [output_path_exists, h, ha]

theorem c2_skip_policy_witness :
    output_path_exists true (fun s => s == "/out/a") "/out/a" = (true, true) ∧
    output_path_exists false (fun s => s == "/out/b.zip") "/out/b" = (true, false) ∧
    output_path_exists false (fun _ => false) "/out/c" = (false, false) ∧
    output_path_exists_force true false (fun _ => true) "/out/d" = (false, false) :=
  ⟨(c2_skip_policy true true (fun s => s == "/out/a") "/out/a").1 (by decide),
   (c2_skip_policy false false (fun s => s == "/out/b.zip") "/out/b").2.1
     (by decide) (by decide),
   (c2_skip_policy false false (fun _ => false) "/out/c").2.2.1
     (by decide) (by decide),
   (c2_skip_policy false true (fun _ => true) "/out/d").2.2.2 rfl⟩

/-- C8: rendering the template
`{project}/{folders:sep=/}/{components:sep=_}/{file} v{version}.{ext}`
(spec-modelled formatter) with the given values yields
`p1/f1/f2/c1_c2/file v2.stl`, and with an empty components sequence
yields `p1/f1/f2//file v2.stl`: the adjacent separators are preserved,
not collapsed, and rendering is total. -/
theorem c8_filepath_formatter :
    render specTemplate ⟨"p1", ["f1", "f2"], ["c1", "c2"], "file", 2, "stl"⟩ =
      "p1/f1/f2/c1_c2/file v2.stl" ∧
    render specTemplate ⟨"p1", ["f1", "f2"], [], "file", 2, "stl"⟩ =
      "p1/f1/f2//file v2.stl" := by
  constructor <;> rfl

/-- C9: a file-version whose extension is not `f3d` is counted as one
`skipped` with no document action at all (empty trace: never opened, no
sketch or format export attempted) and `visit_file` returns normally. -/
theorem c9_non_f3d_skipped :
    ∀ (w : World) (ctx : Ctx) (file : VFile),
      file.fileExtension ≠ "f3d" →
      visit_file w ctx file = (.ok ⟨0, 1, 0⟩, []) := by
  intro w ctx file h
  simp [visit_file, h]

theorem c9_non_f3d_skipped_witness :
    (⟨"part", 2, "step"⟩ : VFile).fileExtension ≠ "f3d" ∧
    visit_file fxWorld fxCtxSk ⟨"part", 2, "step"⟩ = (.ok ⟨0, 1, 0⟩, []) :=
  ⟨by decide, c9_non_f3d_skipped fxWorld fxCtxSk ⟨"part", 2, "step"⟩ (by decide)⟩

/-! ### Equation lemmas for the loops (projection form) -/

theorem formatsLoop_nil (w : World) (ctx : Ctx) (doc : LazyDocument) :
    formatsLoop w ctx [] doc = (0, doc, []) := rfl

theorem formatsLoop_cons (w : World) (ctx : Ctx) (format : Format)
    (rest : List Format) (doc : LazyDocument) :
    formatsLoop w ctx (format :: rest) doc =
      ((match (export_file w ctx format doc).1 with
        | .ok c => c
        | .error _ => ⟨0, 0, 1⟩) +
         (formatsLoop w ctx rest (export_file w ctx format doc).2.1).1,
       (formatsLoop w ctx rest (export_file w ctx format doc).2.1).2.1,
       (export_file w ctx format doc).2.2 ++
         (formatsLoop w ctx rest (export_file w ctx format doc).2.1).2.2) := by
  cases h : export_file w ctx format doc with
  | mk res rpr =>
    cases rpr with
    | mk doc1 tr => cases res <;> simp [formatsLoop, h]

theorem sketchLoop_cons (w : World) (ctx : Ctx) (sk : Sketch) (rest : List Sketch) :
    sketchLoop w ctx (sk :: rest) =
      (match export_sketch w ctx sk with
       | .ok c => c
       | .error _ => ⟨0, 0, 1⟩) + sketchLoop w ctx rest := rfl

theorem versionsGo_cons (w : World) (ctx' : Ctx) (generr : Option String)
    (v : VFile) (vs : List VFile) :
    versionsGo w ctx' generr (v :: vs) =
      (match (visit_file w ctx' v).1 with
       | .ok c => (c + (versionsGo w ctx' generr vs).1,
                   (visit_file w ctx' v).2 ++ (versionsGo w ctx' generr vs).2)
       | .error _ => (⟨0, 0, 1⟩, (visit_file w ctx' v).2)) := by
  cases h : visit_file w ctx' v with
  | mk res tr => cases res <;> simp [versionsGo, h]

theorem filesLoop_cons (w : World) (ctx' : Ctx) (num_versions : Int)
    (f : DataFile) (fs : List DataFile) :
    filesLoop w ctx' num_versions (f :: fs) =
      ((oneFile w ctx' num_versions f).1 + (filesLoop w ctx' num_versions fs).1,
       (oneFile w ctx' num_versions f).2 ++ (filesLoop w ctx' num_versions fs).2) := by
  cases h1 : oneFile w ctx' num_versions f with
  | mk c tr =>
    cases h2 : filesLoop w ctx' num_versions fs with
    | mk c2 tr2 => simp [filesLoop, h1, h2]

theorem visit_folder_eq (w : World) (ctx : Ctx) (recurse : Bool)
    (fid name : String) (files : List DataFile) (subs : List Folder) :
    visit_folder w ctx recurse (.mk fid name files subs) =
      (if recurse then
        ((filesLoop w (ctx.extend (sanitize_filename name)) ctx.num_versions files).1 +
           (foldersLoop w (ctx.extend (sanitize_filename name)) subs).1,
         (filesLoop w (ctx.extend (sanitize_filename name)) ctx.num_versions files).2 ++
           (foldersLoop w (ctx.extend (sanitize_filename name)) subs).2)
      else filesLoop w (ctx.extend (sanitize_filename name)) ctx.num_versions files) := by
  cases h1 : filesLoop w (ctx.extend (sanitize_filename name)) ctx.num_versions files with
  | mk c1 tr1 =>
    cases h2 : foldersLoop w (ctx.extend (sanitize_filename name)) subs with
    | mk c2 tr2 => cases recurse <;> simp [visit_folder, h1, h2]

/-! ### Document acquire/release accounting (for C6) -/

theorem isAcquire_eq : (isAcquire (.acquire n) = true) ∧
    (isAcquire (.release n) = false) ∧ (isAcquire (.unhideAll n) = false) ∧
    (isRelease (.acquire n) = false) ∧ (isRelease (.release n) = true) ∧
    (isRelease (.unhideAll n) = false) :=
  ⟨rfl, rfl, rfl, rfl, rfl, rfl⟩

theorem countAcq_nil : countAcq [] = 0 := rfl

theorem countRel_nil : countRel [] = 0 := rfl

theorem countAcq_cons (a : Action) (tr : List Action) :
    countAcq (a :: tr) = countAcq tr + (if isAcquire a then 1 else 0) :=
  List.countP_cons _ _ _

theorem countRel_cons (a : Action) (tr : List Action) :
    countRel (a :: tr) = countRel tr + (if isRelease a then 1 else 0) :=
  List.countP_cons _ _ _

theorem countAcq_append (a b : List Action) :
    countAcq (a ++ b) = countAcq a + countAcq b := List.countP_append _ _ _

theorem countRel_append (a b : List Action) :
    countRel (a ++ b) = countRel a + countRel b := List.countP_append _ _ _

/-- `open` emits no release; its acquisitions advance the open state
additively; a failed open emits nothing. -/
theorem opn_trace (w : World) (ctx : Ctx) (d : LazyDocument) :
    (∀ d' tr, LazyDocument.opn w ctx d = (.ok d', tr) →
      countRel tr = 0 ∧ countAcq tr + sOf d = sOf d') ∧
    (∀ e tr, LazyDocument.opn w ctx d = (.error e, tr) → tr = []) := by
  unfold LazyDocument.opn
  cases hd : d.document with
  | some doc =>
    refine ⟨fun d' tr h => ?_, fun e tr h => by simp at h⟩
    injection h with h1 h2
    injection h1 with h1
    subst h1; subst h2
    simp [countAcq_nil, countRel_nil]
  | none =>
    cases ho : w.openDoc d.file with
    | error e =>
      refine ⟨fun d' tr h => by simp at h, fun e' tr h => ?_⟩
      injection h with h1 h2
      exact h2.symm
    | ok doc =>
      refine ⟨fun d' tr h => ?_, fun e tr h => by simp at h⟩
      injection h with h1 h2
      injection h1 with h1
      subst h1; subst h2
      cases hu : ctx.unhide_all <;>
        simp [countAcq_cons, countRel_cons, countAcq_nil, countRel_nil,
          isAcquire, isRelease, sOf, hd]

theorem export_file_trace (w : World) (ctx : Ctx) (format : Format)
    (doc : LazyDocument) (r : Except String Counter) (doc1 : LazyDocument)
    (tr : List Action) (h : export_file w ctx format doc = (r, doc1, tr)) :
    countRel tr = 0 ∧ countAcq tr + sOf doc = sOf doc1 := by
  unfold export_file at h
  simp only at h
  by_cases hskip : (outputPathExistsW w (export_filename ctx format doc.file)).1 = true
  · rw [if_pos hskip] at h
    injection h with h1 h2
    injection h2 with h2 h3
    subst h2; subst h3
    simp [countAcq_nil, countRel_nil]
  · rw [if_neg hskip] at h
    cases ho : LazyDocument.opn w ctx doc with
    | mk res tro =>
      rw [ho] at h
      cases res with
      | error e =>
        dsimp only at h
        injection h with h1 h2
        injection h2 with h2 h3
        subst h2; subst h3
        have := (opn_trace w ctx doc).2 e tro ho
        subst this
        simp [countAcq_nil, countRel_nil]
      | ok docA =>
        dsimp only at h
        have hop := (opn_trace w ctx doc).1 docA tro ho
        by_cases hex : w.exportOk (export_filename ctx format doc.file) format = true
        · rw [if_pos hex] at h
          injection h with h1 h2
          injection h2 with h2 h3
          subst h2; subst h3
          exact hop
        · rw [if_neg hex] at h
          injection h with h1 h2
          injection h2 with h2 h3
          subst h2; subst h3
          exact hop

theorem formatsLoop_trace (w : World) (ctx : Ctx) :
    ∀ (fmts : List Format) (doc : LazyDocument),
      countRel (formatsLoop w ctx fmts doc).2.2 = 0 ∧
      countAcq (formatsLoop w ctx fmts doc).2.2 + sOf doc =
        sOf (formatsLoop w ctx fmts doc).2.1 := by
  intro fmts
  induction fmts with
  | nil => intro doc; simp [formatsLoop_nil, countAcq_nil, countRel_nil]
  | cons format rest ih =>
    intro doc
    rw [formatsLoop_cons]
    have h1 := export_file_trace w ctx format doc
      (export_file w ctx format doc).1 (export_file w ctx format doc).2.1
      (export_file w ctx format doc).2.2 rfl
    have h2 := ih (export_file w ctx format doc).2.1
    simp only [countAcq_append, countRel_append]
    exact ⟨by omega, by omega⟩

theorem visit_file_body_trace (w : World) (ctx : Ctx) (doc : LazyDocument) :
    countRel (visit_file_body w ctx doc).2.2 = 0 ∧
    countAcq (visit_file_body w ctx doc).2.2 + sOf doc =
      sOf (visit_file_body w ctx doc).2.1 := by
  unfold visit_file_body
  split
  · cases ho : LazyDocument.opn w ctx doc with
    | mk res tro =>
      cases res with
      | error e =>
        have := (opn_trace w ctx doc).2 e tro ho
        subst this
        simp [countAcq_nil, countRel_nil]
      | ok doc1 =>
        have hop := (opn_trace w ctx doc).1 doc1 tro ho
        dsimp only
        split
        · simpa using hop
        next d hdoc =>
          obtain ⟨h1, h2⟩ := hop
          obtain ⟨h3, h4⟩ := formatsLoop_trace w ctx ctx.formats doc1
          dsimp only
          simp only [countAcq_append, countRel_append]
          constructor
          · rw [h1, h3]
          · rw [← h4, ← h2]; ring
  · exact formatsLoop_trace w ctx ctx.formats doc

/-- In `visit_file` the document is acquired at most once, and released
exactly as many times as it was acquired — on every exit path. -/
theorem visit_file_trace (w : World) (ctx : Ctx) (file : VFile) :
    countAcq (visit_file w ctx file).2 ≤ 1 ∧
    countRel (visit_file w ctx file).2 = countAcq (visit_file w ctx file).2 := by
  unfold visit_file
  split
  · simp [countAcq_nil, countRel_nil]
  · cases hb : visit_file_body w ctx (LazyDocument.new file) with
    | mk res rpr =>
      cases rpr with
      | mk docF trB =>
        have hbt := visit_file_body_trace w ctx (LazyDocument.new file)
        rw [hb] at hbt
        simp only at hbt
        have hnew : sOf (LazyDocument.new file) = 0 := rfl
        rw [hnew] at hbt
        obtain ⟨hbtR, hbtA⟩ := hbt
        dsimp only
        unfold LazyDocument.cls
        split
        next hdoc =>
          have hsF : sOf docF = 0 := by simp [sOf, hdoc]
          rw [hsF] at hbtA
          have hA : countAcq trB = 0 := by omega
          simp [countAcq_append, countRel_append, countAcq_nil, countRel_nil,
            hA, hbtR]
        next d hdoc =>
          have hsF : sOf docF = 1 := by simp [sOf, hdoc]
          rw [hsF] at hbtA
          have hA : countAcq trB = 1 := by omega
          have e1 : countAcq [Action.release docF.file.name] = 0 := rfl
          have e2 : countRel [Action.release docF.file.name] = 1 := rfl
          simp [countAcq_append, countRel_append, e1, e2, hA, hbtR]

/-- C6 counterexample: `close` is not idempotent in its effect on the
underlying document.  Opening a fresh handle and closing it twice issues
the underlying `document.close(False)` twice (the source never clears
`_document`), so the second call does have a further effect on the
underlying document. -/
theorem c6_close_counterexample :
    ((LazyDocument.opn fxWorld fxCtx (LazyDocument.new (fxVf 3))).1.toOption.map
        fun d => (d.cls.2, d.cls.1.cls.2)) =
      some ([Action.release "file1"], [Action.release "file1"]) := by decide

/-- C6 (amended): `open()` is idempotent — a second call is a no-op, so
the underlying document is acquired at most once per instance; `close()`
on a never-opened handle is a no-op; and in `visit_file` (the scoped use
of the handle) the document is acquired at most once and released exactly
as many times as it was acquired, on every exit path, exceptions
included.  (Unlike the original claim, `close()` after opening is not
idempotent in its effect: each call re-issues the underlying
`document.close(False)`, see the counterexample.) -/
theorem c6_lazy_document_amended :
    (∀ (w : World) (ctx : Ctx) (d d' : LazyDocument) (tr : List Action),
      LazyDocument.opn w ctx d = (.ok d', tr) →
      LazyDocument.opn w ctx d' = (.ok d', [])) ∧
    (∀ d : LazyDocument, d.document = none → d.cls = (d, [])) ∧
    (∀ (w : World) (ctx : Ctx) (file : VFile),
      countAcq (visit_file w ctx file).2 ≤ 1 ∧
      countRel (visit_file w ctx file).2 = countAcq (visit_file w ctx file).2) := by
  refine ⟨?_, ?_, fun w ctx file => visit_file_trace w ctx file⟩
  · intro w ctx d d' tr h
    unfold LazyDocument.opn at h ⊢
    cases hd : d.document with
    | some doc =>
      rw [hd] at h
      injection h with h1 h2
      injection h1 with h1
      subst h1
      rw [hd]
    | none =>
      rw [hd] at h
      cases ho : w.openDoc d.file with
      | error e => rw [ho] at h; simp at h
      | ok doc =>
        rw [ho] at h
        injection h with h1 h2
        injection h1 with h1
        subst h1
        rfl
  · intro d h
    unfold LazyDocument.cls
    rw [h]

theorem c6_lazy_document_amended_witness :
    LazyDocument.opn fxWorld fxCtx ⟨fxVf 3, some fxDoc⟩ =
      (.ok ⟨fxVf 3, some fxDoc⟩, []) ∧
    (⟨fxVf 3, none⟩ : LazyDocument).cls = (⟨fxVf 3, none⟩, []) ∧
    (countAcq (visit_file fxWorld fxCtxSk (fxVf 3)).2 ≤ 1 ∧
     countRel (visit_file fxWorld fxCtxSk (fxVf 3)).2 =
       countAcq (visit_file fxWorld fxCtxSk (fxVf 3)).2) :=
  ⟨c6_lazy_document_amended.1 fxWorld fxCtx (LazyDocument.new (fxVf 3))
      ⟨fxVf 3, some fxDoc⟩ [Action.acquire "file1"] rfl,
   c6_lazy_document_amended.2.1 ⟨fxVf 3, none⟩ rfl,
   c6_lazy_document_amended.2.2 fxWorld fxCtxSk (fxVf 3)⟩

/-- C1: per-item error isolation.  (i) An exception from `export_file`
for one format is absorbed at the format boundary: it contributes exactly
`⟨0,0,1⟩` and the loop still runs on the remaining formats (from the
mutated document state).  (ii) An exception from `export_sketch` for one
sketch likewise contributes `⟨0,0,1⟩` and the remaining sketches are
attempted.  (iii) An exception escaping `visit_file` for one file-version
is absorbed at the file boundary of `visit_folder` as exactly one
`errored`; (iv) the remaining sibling files are still processed,
independently; and (v) a recursive folder visit is the sum of its file
loop and its sub-folder loop, so sub-folders are still visited after any
per-file failure.  Each visit function returns a `Counter` (total
function) rather than propagating the exception. -/
theorem c1_per_item_error_isolation :
    (∀ (w : World) (ctx : Ctx) (format : Format) (rest : List Format)
       (doc : LazyDocument) (e : String),
       (export_file w ctx format doc).1 = .error e →
       (formatsLoop w ctx (format :: rest) doc).1 =
         ⟨0, 0, 1⟩ + (formatsLoop w ctx rest (export_file w ctx format doc).2.1).1 ∧
       (formatsLoop w ctx (format :: rest) doc).2.2 =
         (export_file w ctx format doc).2.2 ++
           (formatsLoop w ctx rest (export_file w ctx format doc).2.1).2.2) ∧
    (∀ (w : World) (ctx : Ctx) (sk : Sketch) (rest : List Sketch) (e : String),
       export_sketch w ctx sk = .error e →
       sketchLoop w ctx (sk :: rest) = ⟨0, 0, 1⟩ + sketchLoop w ctx rest) ∧
    (∀ (w : World) (ctx' : Ctx) (generr : Option String) (v : VFile)
       (vs : List VFile) (e : String),
       (visit_file w ctx' v).1 = .error e →
       versionsGo w ctx' generr (v :: vs) = (⟨0, 0, 1⟩, (visit_file w ctx' v).2)) ∧
    (∀ (w : World) (ctx' : Ctx) (n : Int) (f : DataFile) (fs : List DataFile),
       filesLoop w ctx' n (f :: fs) =
         ((oneFile w ctx' n f).1 + (filesLoop w ctx' n fs).1,
          (oneFile w ctx' n f).2 ++ (filesLoop w ctx' n fs).2)) ∧
    (∀ (w : World) (ctx : Ctx) (fid name : String) (files : List DataFile)
       (subs : List Folder),
       (visit_folder w ctx true (.mk fid name files subs)).1 =
         (filesLoop w (ctx.extend (sanitize_filename name)) ctx.num_versions files).1 +
           (foldersLoop w (ctx.extend (sanitize_filename name)) subs).1) := by
  refine ⟨?_, ?_, ?_, ?_, ?_⟩
  · intro w ctx format rest doc e h
    rw [formatsLoop_cons, h]
    exact ⟨rfl, rfl⟩
  · intro w ctx sk rest e h
    rw [sketchLoop_cons, h]
  · intro w ctx' generr v vs e h
    rw [versionsGo_cons, h]
  · intro w ctx' n f fs
    exact filesLoop_cons w ctx' n f fs
  · intro w ctx fid name files subs
    rw [visit_folder_eq]
    simp

theorem c1_per_item_error_isolation_witness :
    ((export_file fxWorldErr fxCtx .F3D (LazyDocument.new (fxVf 3))).1 =
        .error "open raised" ∧
      ((formatsLoop fxWorldErr fxCtx (.F3D :: [.STEP]) (LazyDocument.new (fxVf 3))).1 =
          ⟨0, 0, 1⟩ + (formatsLoop fxWorldErr fxCtx [.STEP]
            (export_file fxWorldErr fxCtx .F3D (LazyDocument.new (fxVf 3))).2.1).1 ∧
        (formatsLoop fxWorldErr fxCtx (.F3D :: [.STEP]) (LazyDocument.new (fxVf 3))).2.2 =
          (export_file fxWorldErr fxCtx .F3D (LazyDocument.new (fxVf 3))).2.2 ++
            (formatsLoop fxWorldErr fxCtx [.STEP]
              (export_file fxWorldErr fxCtx .F3D (LazyDocument.new (fxVf 3))).2.1).2.2)) ∧
    (export_sketch fxWorldErr fxCtx ⟨"sketch1"⟩ = .error "saveAsDXF raised" ∧
      sketchLoop fxWorldErr fxCtx (⟨"sketch1"⟩ :: [⟨"sketch2"⟩]) =
        ⟨0, 0, 1⟩ + sketchLoop fxWorldErr fxCtx [⟨"sketch2"⟩]) ∧
    ((visit_file fxWorldErr fxCtxSk (fxVf 3)).1 = .error "open raised" ∧
      versionsGo fxWorldErr fxCtxSk none (fxVf 3 :: [fxVf 2]) =
        (⟨0, 0, 1⟩, (visit_file fxWorldErr fxCtxSk (fxVf 3)).2)) :=
  ⟨⟨by decide,
    c1_per_item_error_isolation.1 fxWorldErr fxCtx .F3D [.STEP]
      (LazyDocument.new (fxVf 3)) "open raised" (by decide)⟩,
   ⟨by decide,
    c1_per_item_error_isolation.2.1 fxWorldErr fxCtx ⟨"sketch1"⟩ [⟨"sketch2"⟩]
      "saveAsDXF raised" (by decide)⟩,
   ⟨by decide,
    c1_per_item_error_isolation.2.2.1 fxWorldErr fxCtxSk none (fxVf 3) [fxVf 2]
      "open raised" (by decide)⟩⟩

/-! ### Serialization round trip (C5) -/

theorem FormatFromName_value (f : Format) :
    FormatFromName f.value = some f := by cases f <;> rfl

theorem formats_mapM_roundtrip (fmts : List Format) :
    (fmts.map Format.value).mapM FormatFromName = some fmts := by
  induction fmts with
  | nil => rfl
  | cons f rest ih =>
    simp only [List.map_cons, List.mapM_cons, FormatFromName_value, ih,
      Option.bind_eq_bind, Option.some_bind]
    rfl

/-- C5 counterexample: round-tripping a `Ctx` whose filter value is the
Python list `[]` (the "whole project" marker every UI whole-project
selection produces) does not reproduce it — `from_dict` turns the list
into a `set`, and in Python `set() == []` is `False`, so the
reconstructed `Ctx` differs and `main` treats it differently. -/
theorem c5_roundtrip_counterexample :
    Ctx.from_dict (Ctx.to_dict fxCtxList) ≠ .ok fxCtxList := by decide

/-- C5 (amended): the round trip `from_dict ∘ to_dict` reproduces the
output folder, the format list (order included), all flags and the
version count exactly, and it reproduces the project-to-folder-identifier
mapping exactly whenever every filter value is a set; a list-valued
(empty, "whole project") filter is turned into a set and the distinction
"empty filter means whole project" is lost (see the counterexample). -/
theorem c5_roundtrip_amended :
    ∀ c : Ctx, (∀ kv ∈ c.projects_folders, isCanonicalSet kv.2) →
      Ctx.from_dict (Ctx.to_dict c) = .ok c := by
  intro c h
  unfold Ctx.to_dict Ctx.from_dict
  dsimp only
  rw [formats_mapM_roundtrip]
  have hpf : (c.projects_folders.map fun kv => (kv.1, pfToList kv.2)).map
      (fun kv => (kv.1, PFValue.pyset (mkSet kv.2))) = c.projects_folders := by
    rw [List.map_map]
    have : ∀ kv ∈ c.projects_folders,
        ((fun kv => (kv.1, PFValue.pyset (mkSet kv.2))) ∘
          fun kv => (kv.1, pfToList kv.2)) kv = id kv := by
      intro kv hkv
      have hset := h kv hkv
      obtain ⟨k, v⟩ := kv
      cases v with
      | pylist l => exact absurd hset (fun hh => hh)
      | pyset s =>
        simp only [isCanonicalSet] at hset
        simp [Function.comp, pfToList, hset]
    rw [List.map_congr_left this, List.map_id]
  rw [hpf]

theorem c5_roundtrip_amended_witness :
    (∀ kv ∈ fxCtxSet.projects_folders, isCanonicalSet kv.2) ∧
    Ctx.from_dict (Ctx.to_dict fxCtxSet) = .ok fxCtxSet :=
  ⟨by decide, c5_roundtrip_amended fxCtxSet (by decide)⟩

/-- C4 (code bug): `main` compares `folder_ids` against Python *lists*
(`folder_ids == []`, line 378, and `folder_ids == [project.rootFolder.id]`,
line 382), but a Python `set` never equals a list.  The code's own
comments (line 78: "empty list is taken to mean no filter"; line 381:
"if the root folder is the only thing selected, we take that to mean no
recurse") state the intended behavior of the claim, yet: (1)-(2) a `Ctx`
rebuilt by `from_dict` (the documented re-run path, `Template.py`) turns
the empty "whole project" filter into `set()`, and `main` then visits
nothing for that project, although (3) a recursive root visit would have
saved the file; (4)-(5) a UI selection of only the root folder produces
the set `{rootid}`, and `main` again visits nothing, although (6) the
intended non-recursive root visit would have saved the file. -/
theorem c4_folder_filter_code_bug :
    Ctx.from_dict fxDict =
      .ok { fxCtxMain with projects_folders := [("p1", .pyset [])] } ∧
    main fxWorldMain { fxCtxMain with projects_folders := [("p1", .pyset [])] } =
      .ok (⟨0, 0, 0⟩, []) ∧
    (visit_folder fxWorldMain fxCtxMain true fxRoot).1 = ⟨1, 0, 0⟩ ∧
    make_projects_folders [("project1/Root", ("p1", some "rootid"))]
      [("project1/Root", true)] = .ok [("p1", .pyset ["rootid"])] ∧
    main fxWorldMain { fxCtxMain with projects_folders := [("p1", .pyset ["rootid"])] } =
      .ok (⟨0, 0, 0⟩, []) ∧
    (visit_folder fxWorldMain fxCtxMain false fxRoot).1 = ⟨1, 0, 0⟩ := by
  refine ⟨by decide, by decide, by decide, by decide, by decide, by decide⟩

/-! ### The lazy version chain (C10, C3) -/

theorem chainGo_fst (l : List VFile) : ∀ prev, (chainGo prev l).1 = takeContig prev l := by
  induction l with
  | nil => intro prev; rfl
  | cons v vs ih =>
    intro prev
    unfold chainGo takeContig
    by_cases hc : (prev : Int) - (v.versionNumber : Int) ≠ 1
    · rw [if_pos hc]
      have hn : ¬ prev = v.versionNumber + 1 := by omega
      rw [if_neg hn]
    · rw [if_neg hc]
      have hn : prev = v.versionNumber + 1 := by omega
      rw [if_pos hn]
      simp [ih]

theorem chainGo_none_iff (l : List VFile) :
    ∀ prev, (chainGo prev l).2 = none ↔ contigFromB prev l = true := by
  induction l with
  | nil => intro prev; simp [chainGo, contigFromB]
  | cons v vs ih =>
    intro prev
    unfold chainGo contigFromB
    by_cases hc : (prev : Int) - (v.versionNumber : Int) ≠ 1
    · rw [if_pos hc]
      have hn : ¬ prev = v.versionNumber + 1 := by omega
      simp [hn]
    · rw [if_neg hc]
      have hn : prev = v.versionNumber + 1 := by omega
      simp [hn, ih]

/-- The counter of the per-file version loop when every yielded version
visit succeeds and the generator ends by raising: the per-version
counters are retained and exactly one `errored` is appended. -/
theorem versionsGo_all_ok (w : World) (ctx' : Ctx) (e : String) :
    ∀ ys : List VFile,
      (∀ v ∈ ys, ((visit_file w ctx' v).1).isOk = true) →
      (versionsGo w ctx' (some e) ys).1 =
        sumCounters (ys.map fun v => exceptCounter (visit_file w ctx' v).1) +
          ⟨0, 0, 1⟩ := by
  intro ys
  induction ys with
  | nil =>
    intro _
    simp [versionsGo, sumCounters, Counter.zero_add]
  | cons v vs ih =>
    intro h
    have hv := h v (List.mem_cons_self v vs)
    cases hvf : (visit_file w ctx' v).1 with
    | error err => rw [hvf] at hv; simp [Except.isOk, Except.toBool] at hv
    | ok c =>
      rw [versionsGo_cons, hvf]
      dsimp only
      rw [ih (fun u hu => h u (List.mem_cons_of_mem v hu))]
      simp only [List.map_cons, sumCounters, List.foldr_cons, hvf, exceptCounter]
      rw [Counter.add_assoc]

/-- C10: the contiguity check of `file_versions` runs lazily, so on a
gapped chain the current version and every version before the gap are
yielded first (conjunct 1: the yield list is the file followed by the
longest contiguous initial segment of the selection); `visit_folder`
visits and exports those yielded versions, keeps their counter
contributions with no rollback, and records exactly one additional
`errored` for the file (conjunct 2). -/
theorem c10_gap_prefix_retained :
    (∀ (f : DataFile) (n : Int) (v0 : VFile) (rest ys : List VFile) (e : String),
      sortDesc f.versions = v0 :: rest →
      v0.versionNumber = f.versionNumber →
      file_versions f n = (ys, some e) →
      ys = f.toVFile :: takeContig f.versionNumber (selOf f n)) ∧
    (∀ (w : World) (ctx : Ctx) (fid name : String) (f : DataFile)
       (ys : List VFile) (e : String),
      file_versions f ctx.num_versions = (ys, some e) →
      (∀ v ∈ ys,
        ((visit_file w (ctx.extend (sanitize_filename name)) v).1).isOk = true) →
      (visit_folder w ctx true (.mk fid name [f] [])).1 =
        sumCounters (ys.map fun v =>
          exceptCounter (visit_file w (ctx.extend (sanitize_filename name)) v).1) +
          ⟨0, 0, 1⟩) := by
  constructor
  · intro f n v0 rest ys e hsort hhead hfv
    unfold file_versions at hfv
    rw [hsort] at hfv
    dsimp only at hfv
    rw [if_neg (by rw [hhead]; exact fun hh => hh rfl)] at hfv
    have hsel : (if n = -1 then (v0 :: rest).drop 1
        else pySlice1To (n + 1) (v0 :: rest)) = selOf f n := by
      unfold selOf
      rw [hsort]
    rw [hsel] at hfv
    injection hfv with h1 h2
    rw [← h1, chainGo_fst]
  · intro w ctx fid name f ys e hfv hok
    rw [visit_folder_eq]
    simp only [if_pos]
    rw [filesLoop_cons]
    dsimp only
    have hfl : filesLoop w (ctx.extend (sanitize_filename name)) ctx.num_versions [] =
        (0, []) := rfl
    have hfo : foldersLoop w (ctx.extend (sanitize_filename name)) [] = (0, []) := rfl
    rw [hfl, hfo]
    unfold oneFile
    rw [hfv]
    dsimp only
    rw [versionsGo_all_ok w (ctx.extend (sanitize_filename name)) e ys hok]
    rw [Counter.add_zero, Counter.add_zero]

theorem c10_gap_prefix_retained_witness :
    file_versions fxGapFile fxCtx.num_versions =
      ([fxGapFile.toVFile], some "Versions not contiguous! prev=3 cur=1") ∧
    ([fxGapFile.toVFile] : List VFile) =
      fxGapFile.toVFile :: takeContig fxGapFile.versionNumber (selOf fxGapFile (-1)) ∧
    (visit_folder fxWorld fxCtx true (.mk "fid" "gfolder" [fxGapFile] [])).1 =
      sumCounters ([fxGapFile.toVFile].map fun v =>
        exceptCounter (visit_file fxWorld (fxCtx.extend (sanitize_filename "gfolder")) v).1) +
        ⟨0, 0, 1⟩ :=
  ⟨by decide,
   c10_gap_prefix_retained.1 fxGapFile (-1) ⟨"gap", 3, "f3d"⟩ [⟨"gap", 1, "f3d"⟩]
     [fxGapFile.toVFile] "Versions not contiguous! prev=3 cur=1"
     (by decide) (by decide) (by decide),
   c10_gap_prefix_retained.2 fxWorld fxCtx "fid" "gfolder" fxGapFile
     [fxGapFile.toVFile] "Versions not contiguous! prev=3 cur=1"
     (by decide) (by decide)⟩

/-! ### Sorting and contiguity lemmas (C3) -/

theorem mem_countdown : ∀ (n x : Nat), x ∈ countdown n ↔ 1 ≤ x ∧ x ≤ n := by
  intro n
  induction n with
  | zero => intro x; simp [countdown]; omega
  | succ k ih =>
    intro x
    simp only [countdown, List.mem_cons, ih]
    omega

theorem countdown_pairwise : ∀ n, (countdown n).Pairwise (fun a b => b < a) := by
  intro n
  induction n with
  | zero => exact List.Pairwise.nil
  | succ k ih =>
    refine List.pairwise_cons.mpr ⟨?_, ih⟩
    intro x hx
    exact Nat.lt_succ_of_le ((mem_countdown k x).mp hx).2

theorem sortDesc_perm (l : List VFile) : (sortDesc l).Perm l :=
  List.perm_insertionSort vGe l

theorem sortDesc_sorted (l : List VFile) : (sortDesc l).Pairwise vGe :=
  List.sorted_insertionSort vGe l

theorem eq_of_perm_strict :
    ∀ {l₁ l₂ : List VFile}, l₁.Perm l₂ →
      l₁.Pairwise (fun a b => b.versionNumber < a.versionNumber) →
      l₂.Pairwise (fun a b => b.versionNumber < a.versionNumber) → l₁ = l₂ := by
  intro l₁
  induction l₁ with
  | nil =>
    intro l₂ p _ _
    exact (p.nil_eq).symm ▸ rfl
  | cons a t₁ ih =>
    intro l₂ p s₁ s₂
    cases l₂ with
    | nil => exact absurd (p.symm.nil_eq) (by simp)
    | cons b t₂ =>
      obtain ⟨ha1, ht1⟩ := List.pairwise_cons.mp s₁
      obtain ⟨hb2, ht2⟩ := List.pairwise_cons.mp s₂
      have hab : a = b := by
        have hmem : a ∈ b :: t₂ := p.mem_iff.mp (List.mem_cons_self a t₁)
        rcases List.mem_cons.mp hmem with h | h
        · exact h
        · exfalso
          have h1 : a.versionNumber < b.versionNumber := hb2 a h
          have hmem2 : b ∈ a :: t₁ := p.mem_iff.mpr (List.mem_cons_self b t₂)
          rcases List.mem_cons.mp hmem2 with h' | h'
          · subst h'; exact Nat.lt_irrefl _ h1
          · exact Nat.lt_irrefl _ (Nat.lt_trans h1 (ha1 b h'))
      subst hab
      rw [ih (p.cons_inv) ht1 ht2]

theorem vs_strict_of_countdown {vs : List VFile} {cur : Nat}
    (h : vs.map VFile.versionNumber = countdown cur) :
    vs.Pairwise (fun a b => b.versionNumber < a.versionNumber) := by
  have := countdown_pairwise cur
  rw [← h] at this
  exact List.pairwise_map.mp this

theorem sortDesc_eq_of_perm {l vs : List VFile} {cur : Nat}
    (hperm : l.Perm vs) (hmap : vs.map VFile.versionNumber = countdown cur) :
    sortDesc l = vs := by
  have hperm2 : (sortDesc l).Perm vs := (sortDesc_perm l).trans hperm
  have hvs_strict := vs_strict_of_countdown hmap
  have hnodup : ((sortDesc l).map VFile.versionNumber).Nodup := by
    have hp : ((sortDesc l).map VFile.versionNumber).Perm
        (vs.map VFile.versionNumber) := hperm2.map _
    rw [hp.nodup_iff, hmap]
    exact (countdown_pairwise cur).imp (fun h => (Nat.ne_of_lt h).symm)
  have hne : (sortDesc l).Pairwise
      (fun a b => a.versionNumber ≠ b.versionNumber) :=
    List.pairwise_map.mp hnodup
  have hstrict : (sortDesc l).Pairwise
      (fun a b => b.versionNumber < a.versionNumber) :=
    ((sortDesc_sorted l).and hne).imp
      (fun h => Nat.lt_of_le_of_ne h.1 (fun hh => h.2 hh.symm))
  exact eq_of_perm_strict hperm2 hstrict hvs_strict

theorem contig_of_countdown :
    ∀ (l : List VFile) (m : Nat),
      l.map VFile.versionNumber = countdown m → contigFromB (m + 1) l = true := by
  intro l
  induction l with
  | nil => intro m _; rfl
  | cons v vs ih =>
    intro m hm
    cases m with
    | zero => simp [countdown] at hm
    | succ k =>
      simp only [countdown, List.map_cons, List.cons.injEq] at hm
      obtain ⟨h1, h2⟩ := hm
      simp only [contigFromB, h1, Bool.and_eq_true, decide_eq_true_eq]
      exact ⟨by trivial, ih k h2⟩

theorem contig_take :
    ∀ (l : List VFile) (prev k : Nat),
      contigFromB prev l = true → contigFromB prev (l.take k) = true := by
  intro l
  induction l with
  | nil => intro prev k _; simp [contigFromB]
  | cons v vs ih =>
    intro prev k h
    cases k with
    | zero => rfl
    | succ k' =>
      simp only [contigFromB, Bool.and_eq_true] at h
      simp only [List.take_succ_cons, contigFromB, Bool.and_eq_true]
      exact ⟨h.1, ih v.versionNumber k' h.2⟩

theorem takeContig_of_contig :
    ∀ (l : List VFile) (prev : Nat),
      contigFromB prev l = true → takeContig prev l = l := by
  intro l
  induction l with
  | nil => intro prev _; rfl
  | cons v vs ih =>
    intro prev h
    simp only [contigFromB, Bool.and_eq_true, decide_eq_true_eq] at h
    simp only [takeContig, if_pos h.1]
    rw [ih v.versionNumber h.2]

theorem chainGo_of_contig {l : List VFile} {prev : Nat}
    (h : contigFromB prev l = true) : chainGo prev l = (l, none) :=
  Prod.ext (by rw [chainGo_fst, takeContig_of_contig l prev h])
    ((chainGo_none_iff l prev).mpr h)

/-- C3: the version resolver.  For a file whose versions collection is a
permutation of handles numbered `cur, cur-1, ..., 1`: the resolver sorts
them numerically descending (conjunct 1 of part 1); `num_versions = -1`
yields the file followed by all older versions descending, `0` yields
only the file, and `n ≥ 1` yields the file plus up to `n` older versions
(conjuncts 2-4), all without raising.  In general, a sorted head whose
version number differs from the file's reported current version raises
(part 2), and a run that does not raise has consumed the whole selection
— the yield list is exactly the file followed by the full selection and
is contiguously descending, so a gap can never be silently truncated
(part 3). -/
theorem c3_version_resolver :
    (∀ (f : DataFile) (vs : List VFile),
      f.versions.Perm vs →
      vs.map VFile.versionNumber = countdown f.versionNumber →
      1 ≤ f.versionNumber →
      sortDesc f.versions = vs ∧
      file_versions f (-1) = (f.toVFile :: vs.drop 1, none) ∧
      file_versions f 0 = ([f.toVFile], none) ∧
      (∀ n : Nat, 1 ≤ n →
        file_versions f (n : Int) = (f.toVFile :: (vs.drop 1).take n, none))) ∧
    (∀ (f : DataFile) (n : Int) (v0 : VFile) (rest : List VFile),
      sortDesc f.versions = v0 :: rest →
      v0.versionNumber ≠ f.versionNumber →
      ∃ msg, file_versions f n = ([], some msg)) ∧
    (∀ (f : DataFile) (n : Int) (ys : List VFile),
      file_versions f n = (ys, none) →
      ys = f.toVFile :: selOf f n ∧ contigFromB (f.versionNumber + 1) ys = true) := by
  refine ⟨?_, ?_, ?_⟩
  · intro f vs hperm hmap hpos
    have hsort : sortDesc f.versions = vs := sortDesc_eq_of_perm hperm hmap
    obtain ⟨cur, hcur⟩ : ∃ cur, f.versionNumber = cur + 1 :=
      ⟨f.versionNumber - 1, by omega⟩
    rw [hcur] at hmap
    obtain ⟨v0, tail, rfl⟩ : ∃ v0 tail, vs = v0 :: tail := by
      cases vs with
      | nil => simp [countdown] at hmap
      | cons v0 tail => exact ⟨v0, tail, rfl⟩
    simp only [countdown, List.map_cons, List.cons.injEq] at hmap
    obtain ⟨hv0, htail⟩ := hmap
    have hcontig : contigFromB (cur + 1) tail = true := by
      cases cur with
      | zero =>
        cases tail with
        | nil => rfl
        | cons t ts => simp [countdown] at htail
      | succ k =>
        have := contig_of_countdown tail (k + 1) htail
        exact this
    refine ⟨hsort, ?_, ?_, ?_⟩
    · unfold file_versions
      rw [hsort]
      dsimp only
      rw [if_neg (by rw [hv0, hcur]; exact fun hh => hh rfl)]
      rw [if_pos rfl]
      simp only [List.drop_succ_cons, List.drop_zero]
      rw [hcur, chainGo_of_contig hcontig]
    · unfold file_versions
      rw [hsort]
      dsimp only
      rw [if_neg (by rw [hv0, hcur]; exact fun hh => hh rfl)]
      rw [if_neg (by decide)]
      have hslice : pySlice1To ((0 : Int) + 1) (v0 :: tail) = [] := by
        unfold pySlice1To
        norm_num
      rw [hslice]
      rfl
    · intro n hn
      unfold file_versions
      rw [hsort]
      dsimp only
      rw [if_neg (by rw [hv0, hcur]; exact fun hh => hh rfl)]
      rw [if_neg (by omega)]
      have hslice : pySlice1To ((n : Int) + 1) (v0 :: tail) = tail.take n := by
        unfold pySlice1To
        rw [if_neg (by omega)]
        have hst : ((n : Int) + 1).toNat = n + 1 := by omega
        dsimp only
        rw [hst, List.take_succ_cons, List.drop_succ_cons, List.drop_zero]
      rw [hslice, hcur,
        chainGo_of_contig (contig_take tail (cur + 1) n hcontig)]
      simp [List.drop_succ_cons]
  · intro f n v0 rest hsort hne
    refine ⟨"Expected versions[0] to be current file version, but got " ++
      toString v0.versionNumber, ?_⟩
    unfold file_versions
    rw [hsort]
    dsimp only
    rw [if_pos hne]
  · intro f n ys hfv
    unfold file_versions at hfv
    cases hs : sortDesc f.versions with
    | nil =>
      rw [hs] at hfv
      dsimp only at hfv
      exact absurd (congrArg Prod.snd hfv) (by simp)
    | cons v0 rest =>
      rw [hs] at hfv
      dsimp only at hfv
      by_cases hne : v0.versionNumber ≠ f.versionNumber
      · rw [if_pos hne] at hfv
        exact absurd (congrArg Prod.snd hfv) (by simp)
      · rw [if_neg hne] at hfv
        have hsel : (if n = -1 then (v0 :: rest).drop 1
            else pySlice1To (n + 1) (v0 :: rest)) = selOf f n := by
          unfold selOf
          rw [hs]
        rw [hsel] at hfv
        have h2 : (chainGo f.versionNumber (selOf f n)).2 = none :=
          congrArg Prod.snd hfv
        have hcontig := (chainGo_none_iff (selOf f n) f.versionNumber).mp h2
        have h1 : f.toVFile :: (chainGo f.versionNumber (selOf f n)).1 = ys :=
          congrArg Prod.fst hfv
        constructor
        · rw [← h1, chainGo_fst, takeContig_of_contig _ _ hcontig]
        · rw [← h1]
          simp only [contigFromB, Bool.and_eq_true, decide_eq_true_eq]
          refine ⟨by trivial, ?_⟩
          rw [chainGo_fst, takeContig_of_contig _ _ hcontig]
          exact hcontig

theorem c3_version_resolver_witness :
    file_versions fxFile (-1) = (fxFile.toVFile :: [fxVf 2, fxVf 1], none) ∧
    file_versions fxFile 0 = ([fxFile.toVFile], none) ∧
    file_versions fxFile (2 : Nat) = (fxFile.toVFile :: [fxVf 2, fxVf 1], none) ∧
    (∃ msg, file_versions fxBadHead 0 = ([], some msg)) ∧
    ([fxFile.toVFile] = fxFile.toVFile :: selOf fxFile 0 ∧
      contigFromB (fxFile.versionNumber + 1) [fxFile.toVFile] = true) :=
  have hmain := c3_version_resolver.1 fxFile [fxVf 3, fxVf 2, fxVf 1]
    (by decide) (by decide) (by decide)
  ⟨hmain.2.1, hmain.2.2.1, hmain.2.2.2 2 (by decide),
   c3_version_resolver.2.1 fxBadHead 0 ⟨"bad", 5, "f3d"⟩ [⟨"bad", 4, "f3d"⟩]
     (by decide) (by decide),
   c3_version_resolver.2.2 fxFile 0 [fxFile.toVFile] (by decide)⟩

/-! ### Sanitizer lemmas (C7) -/

theorem map_eq_self_of_mem {l : List Char} {f : Char → Char}
    (h : l.map f = l) : ∀ x ∈ l, f x = x := by
  induction l with
  | nil => intro x hx; cases hx
  | cons a t ih =>
    intro x hx
    simp only [List.map_cons, List.cons.injEq] at h
    rcases List.mem_cons.mp hx with rfl | hx'
    · exact h.1
    · exact ih h.2 x hx'

theorem replaceBad_of_no_bad (name : String)
    (h : ∀ c ∈ name.data, c ∉ badChars) : replaceBadChars name = name := by
  cases name with
  | mk l =>
    unfold replaceBadChars
    simp only
    congr 1
    have : ∀ a ∈ l, (if a ∈ badChars then ' ' else a) = id a := by
      intro a ha
      simp [if_neg (h a ha)]
    rw [List.map_congr_left this, List.map_id]

theorem replaceBad_ne_of_bad (name : String)
    (h : ∃ c ∈ name.data, c ∈ badChars) : name ≠ replaceBadChars name := by
  intro heq
  cases name with
  | mk l =>
    unfold replaceBadChars at heq
    injection heq with hd
    obtain ⟨c, hc, hcbad⟩ := h
    have hfix := map_eq_self_of_mem hd.symm c hc
    rw [if_pos hcbad] at hfix
    rw [← hfix] at hcbad
    exact absurd hcbad (by decide)

theorem sanitize_eq_self (name : String)
    (h : ∀ c ∈ name.data, c ∉ badChars) : sanitize_filename name = name := by
  unfold sanitize_filename
  rw [replaceBad_of_no_bad name h]
  simp

theorem sanitize_dirty_eq (name : String)
    (h : ∃ c ∈ name.data, c ∈ badChars) :
    sanitize_filename name =
      String.mk ((replaceBadChars name).data ++ '_' :: (sha256HexChars name).take 8) := by
  unfold sanitize_filename
  rw [if_neg (replaceBad_ne_of_bad name h)]

set_option maxRecDepth 200000 in
/-- C7 counterexample: two distinct names that sanitize to the same
visible string and to the SAME final output — the 8-hex-character
truncation of SHA-256 collides, so the claimed distinctness guarantee
fails on the code. -/
theorem c7_sanitize_collision_counterexample :
    fxCollA ≠ fxCollB ∧
    replaceBadChars fxCollA = replaceBadChars fxCollB ∧
    sanitize_filename fxCollA = sanitize_filename fxCollB :=
  ⟨by decide, by decide, by decide⟩

/-- C7 (amended): a name containing none of the characters
`: \ / * ? < > | "` is returned unchanged; otherwise every such
character is replaced by one space and the result is suffixed with an
underscore and the first 8 hex characters of the SHA-256 digest of the
original name; and two distinct original names with the same visible
replacement produce distinct outputs PROVIDED their truncated digests
differ (or one of them is clean) — unlike the original claim, equality
of the 8-character digest prefixes can and does produce a collision (see
the counterexample). -/
theorem c7_sanitize_amended :
    (∀ name : String, (∀ c ∈ name.data, c ∉ badChars) →
      sanitize_filename name = name) ∧
    (∀ name : String, (∃ c ∈ name.data, c ∈ badChars) →
      sanitize_filename name =
        String.mk ((replaceBadChars name).data ++ '_' ::
          (sha256HexChars name).take 8)) ∧
    (∀ a b : String, replaceBadChars a = replaceBadChars b →
      (sha256HexChars a).take 8 ≠ (sha256HexChars b).take 8 →
      (∃ c ∈ a.data, c ∈ badChars) → (∃ c ∈ b.data, c ∈ badChars) →
      sanitize_filename a ≠ sanitize_filename b) ∧
    (∀ a b : String, (∀ c ∈ a.data, c ∉ badChars) →
      (∃ c ∈ b.data, c ∈ badChars) → replaceBadChars a = replaceBadChars b →
      sanitize_filename a ≠ sanitize_filename b) := by
  refine ⟨sanitize_eq_self, sanitize_dirty_eq, ?_, ?_⟩
  · intro a b hvis hne ha hb heq
    rw [sanitize_dirty_eq a ha, sanitize_dirty_eq b hb] at heq
    injection heq with hd
    rw [congrArg String.data hvis] at hd
    have htail := List.append_cancel_left hd
    injection htail with _ h8
    exact hne h8
  · intro a b ha hb hvis heq
    rw [sanitize_eq_self a ha, sanitize_dirty_eq b hb] at heq
    have hdata : a.data = (replaceBadChars b).data ++ '_' ::
        (sha256HexChars b).take 8 := congrArg String.data heq
    have hva : a.data = (replaceBadChars b).data := by
      rw [← hvis, replaceBad_of_no_bad a ha]
    rw [hva] at hdata
    have hlen := congrArg List.length hdata
    simp [List.length_append] at hlen

set_option maxRecDepth 200000 in
theorem c7_sanitize_amended_witness :
    sanitize_filename "Model 1" = "Model 1" ∧
    sanitize_filename "Model 1/2" =
      String.mk ((replaceBadChars "Model 1/2").data ++ '_' ::
        (sha256HexChars "Model 1/2").take 8) ∧
    sanitize_filename "a:" ≠ sanitize_filename "a?" ∧
    sanitize_filename "a " ≠ sanitize_filename "a:" :=
  ⟨c7_sanitize_amended.1 "Model 1" (by decide),
   c7_sanitize_amended.2.1 "Model 1/2" (by decide),
   c7_sanitize_amended.2.2.1 "a:" "a?" (by decide) (by decide)
     (by decide) (by decide),
   c7_sanitize_amended.2.2.2 "a " "a:" (by decide) (by decide) (by decide)⟩

end Exporter
